import Mathlib

/-!
Verification of the country-outline service in `src/main.py`.

The program fetches a Wikipedia page for a country, parses it with
BeautifulSoup, extracts the `h1`–`h6` headings from the `mw-content-text`
content region (in document order), cleans each heading's text (removes the
literal `[edit]` marker and re-trims), drops headings whose cleaned text is
empty, and renders the surviving `(level, text)` records as a Markdown
outline (`level` many `#` characters, a space, the text), with a synthetic
`# Contents` line prepended, joined by `"\n"`.

The embedding below models, from the source:
  * Python string primitives used by the code (`str.strip`, `str.replace`
    with the fixed pattern `"[edit]"` and empty replacement, `str.join`,
    `str.lower`, `"#" * level`);
  * the parsed-HTML tree and the BeautifulSoup operations the code calls
    (`find('div', {'id': 'mw-content-text'})`, truthiness of a Tag,
    `find_all(['h1'..'h6'])`, `get_text(strip=True)`);
  * the functions `extract_headings`, `generate_markdown_outline`,
    `fetch_wikipedia_page` and the `/api/outline` handler
    `get_country_outline` (HTTP failures abstracted as a fetch outcome).
-/

/-! ### Python string primitives -/

/-- Python `s.strip()` on a character list: remove leading and trailing
whitespace (ASCII whitespace suffices for the texts this program handles). -/
def pyStripL (l : List Char) : List Char :=
  ((l.dropWhile Char.isWhitespace).reverse.dropWhile Char.isWhitespace).reverse

/-- Python `s.strip()` on strings. -/
def pyStrip (s : String) : String := ⟨pyStripL s.data⟩

/-- The literal editor-artifact marker `"[edit]"` that
`text.replace('[edit]', '')` removes (src/main.py line 93). -/
def editMarker : List Char := ['[', 'e', 'd', 'i', 't', ']']

/-- Python `text.replace('[edit]', '')`: scan left to right; whenever the
marker occurs, remove it and continue scanning after it (the replaced region
is not rescanned, exactly as Python's `str.replace`). -/
def removeEditL : List Char → List Char
  | '[' :: 'e' :: 'd' :: 'i' :: 't' :: ']' :: rest => removeEditL rest
  | c :: rest => c :: removeEditL rest
  | [] => []

/-- `str.replace('[edit]', '')` on strings. -/
def pyRemoveEdit (s : String) : String := ⟨removeEditL s.data⟩

/-- Python `s.lower()` (per-character lowering; exact on ASCII). -/
def pyLower (s : String) : String := ⟨s.data.map Char.toLower⟩

/-- Python `sep.join(strings)`. -/
def pyJoin (sep : List Char) : List String → List Char
  | [] => []
  | [s] => s.data
  | s :: next :: rest => s.data ++ sep ++ pyJoin sep (next :: rest)

/-- Python `"#" * level` (src/main.py line 121). -/
def hashMarks (level : Nat) : List Char := List.replicate level '#'

/-- Python `int(c)` for a digit character `c` (used as `int(heading.name[1])`,
src/main.py line 87). -/
def charDigit (c : Char) : Nat := c.toNat - 48

/-! ### Parsed HTML tree (the BeautifulSoup document model)

A parsed document is a forest of nodes; an element node carries its tag
name, its `id` attribute when present (the only attribute this program ever
inspects), and its children.  A mutual inductive is used so that all
traversals are structural and computable. -/

mutual
inductive Node where
  | text (s : String)
  | elem (tag : String) (idAttr : Option String) (children : Forest)
inductive Forest where
  | nil
  | cons (head : Node) (tail : Forest)
end

/-- Build a `Forest` from a list of nodes. -/
def Forest.ofList : List Node → Forest
  | [] => .nil
  | n :: rest => .cons n (Forest.ofList rest)

/-- Tag name of a node (`""` for a text node; only ever used on elements). -/
def tagOf : Node → String
  | .text _ => ""
  | .elem t _ _ => t

/-- Membership test of the tag list `['h1','h2','h3','h4','h5','h6']` passed
to `find_all` (src/main.py line 85). -/
def isHeadingTag (t : String) : Bool :=
  t == "h1" || t == "h2" || t == "h3" || t == "h4" || t == "h5" || t == "h6"

/-- Is this node a heading element? -/
def isHeadingNode : Node → Bool
  | .text _ => false
  | .elem t _ _ => isHeadingTag t

mutual
/-- The strings of all text descendants of a node, in document order
(a text node yields its own string). -/
def nodeTexts : Node → List String
  | .text s => [s]
  | .elem _ _ cs => forestTexts cs
def forestTexts : Forest → List String
  | .nil => []
  | .cons n rest => nodeTexts n ++ forestTexts rest
end

/-- BeautifulSoup `node.get_text(strip=True)` (src/main.py line 90): each
descendant string stripped, concatenated with the empty separator. -/
def getTextStrip (n : Node) : String :=
  String.join ((nodeTexts n).map pyStrip)

mutual
/-- BeautifulSoup `find('div', {'id': 'mw-content-text'})` on a subtree:
first matching element in pre-order (the node itself, then its
descendants). -/
def findDivNode : Node → Option Node
  | .text _ => none
  | .elem t i cs =>
      if t = "div" ∧ i = some "mw-content-text" then some (.elem t i cs)
      else findDivForest cs
/-- `find('div', {'id': 'mw-content-text'})` on a forest (the soup object
searches every node of the document in pre-order). -/
def findDivForest : Forest → Option Node
  | .nil => none
  | .cons n rest =>
      match findDivNode n with
      | some d => some d
      | none => findDivForest rest
end

/-- The content scoper (src/main.py lines 78-80):
`content = soup.find('div', {'id': 'mw-content-text'}); if not content:
content = soup`.  The result is the forest whose descendants the subsequent
`find_all` scans: the children of the found `div`, or the whole document.
Note bs4 `Tag` implements `__len__` as the number of children, so a found
but childless `div` is falsy in Python and the code falls back to the whole
document. -/
def scopeOf (doc : Forest) : Forest :=
  match findDivForest doc with
  | some (.elem _ _ (.cons n rest)) => .cons n rest
  | _ => doc

mutual
/-- BeautifulSoup `content.find_all(['h1','h2','h3','h4','h5','h6'])`
restricted to one subtree: every heading element in pre-order.  -/
def nodeHeadings : Node → List Node
  | .text _ => []
  | .elem t i cs =>
      (if isHeadingTag t then [Node.elem t i cs] else []) ++ forestHeadings cs
/-- `find_all(['h1'..'h6'])` over a forest (src/main.py line 85): headings of
every tree, in document order. -/
def forestHeadings : Forest → List Node
  | .nil => []
  | .cons n rest => nodeHeadings n ++ forestHeadings rest
end

mutual
/-- All element nodes of a subtree in pre-order (document order); the
specification-side description of traversal order, proved to agree with
`forestHeadings` after filtering. -/
def nodeElems : Node → List Node
  | .text _ => []
  | .elem t i cs => Node.elem t i cs :: forestElems cs
/-- All element nodes of a forest in pre-order. -/
def forestElems : Forest → List Node
  | .nil => []
  | .cons n rest => nodeElems n ++ forestElems rest
end

mutual
/-- Number of heading elements in a subtree. -/
def nodeHeadingCount : Node → Nat
  | .text _ => 0
  | .elem t _ cs => (if isHeadingTag t then 1 else 0) + forestHeadingCount cs
/-- Number of heading elements in a forest. -/
def forestHeadingCount : Forest → Nat
  | .nil => 0
  | .cons n rest => nodeHeadingCount n + forestHeadingCount rest
end

/-! ### The core transform (src/main.py) -/

/-- `level = int(heading.name[1])` (src/main.py line 87). -/
def headingLevel (t : String) : Nat := charDigit (t.data.getD 1 ' ')

/-- The text clean-up applied to one heading (src/main.py lines 90-93):
`text.replace('[edit]', '').strip()` after `get_text(strip=True)`. -/
def sanitizeText (s : String) : String := pyStrip (pyRemoveEdit s)

/-- One iteration of the extraction loop (src/main.py lines 85-97): compute
the level from the tag name, clean the text, keep the record unless the
cleaned text is empty. -/
def processHeading (h : Node) : Option (Nat × String) :=
  if sanitizeText (getTextStrip h) = "" then none
  else some (headingLevel (tagOf h), sanitizeText (getTextStrip h))

/-- `extract_headings` (src/main.py lines 63-99): scope the document, walk
the heading elements in document order, clean each text, keep the non-empty
records. -/
def extract_headings (doc : Forest) : List (Nat × String) :=
  (forestHeadings (scopeOf doc)).filterMap processHeading

/-- The raw `(level, text)` records emitted by the heading walker before
the sanitization step: levels from the tag names, texts from
`get_text(strip=True)`. -/
def rawRecords (doc : Forest) : List (Nat × String) :=
  (forestHeadings (scopeOf doc)).map (fun h => (headingLevel (tagOf h), getTextStrip h))

/-- The sanitization step as a sequence transformer (the inline body of the
loop, src/main.py lines 90-97, factored out): remove `[edit]`, re-trim,
drop records whose resulting text is empty. -/
def sanitizeRecords (rs : List (Nat × String)) : List (Nat × String) :=
  rs.filterMap (fun r =>
    if sanitizeText r.2 = "" then none else some (r.1, sanitizeText r.2))

/-- One rendered outline line (src/main.py lines 121-124):
`f"{hash_marks} {text}"` with `hash_marks = "#" * level`. -/
def markdownLine (r : Nat × String) : String :=
  ⟨hashMarks r.1 ++ ' ' :: r.2.data⟩

/-- `generate_markdown_outline` (src/main.py lines 102-126): the fixed
string for an empty sequence, otherwise `"\n".join` of `"# Contents\n"`
followed by one line per record. -/
def generate_markdown_outline (headings : List (Nat × String)) : String :=
  if headings = [] then "No headings found."
  else ⟨pyJoin ['\n'] ("# Contents\n" :: headings.map markdownLine)⟩

/-! ### The fetcher and the HTTP facade -/

/-- Outcome of the outbound GET in `fetch_wikipedia_page` (src/main.py
lines 41-60): a 2xx response whose body parses to the given document, an
`HTTPStatusError` carrying the response status (raised by
`raise_for_status`), or any other failure (timeout, network error, ...). -/
inductive FetchOutcome where
  | success (doc : Forest)
  | statusError (code : Nat)
  | otherFailure

/-- `fetch_wikipedia_page` (src/main.py lines 23-60): return the fetched
document, or fail with an HTTP status code: 404 when the upstream status is
404, 500 for every other `HTTPStatusError` and for any other exception. -/
def fetch_wikipedia_page (outcome : FetchOutcome) : Except Nat Forest :=
  match outcome with
  | .success doc => .ok doc
  | .statusError code => if code = 404 then .error 404 else .error 500
  | .otherFailure => .error 500

/-- The `/api/outline` handler `get_country_outline` (src/main.py lines
147-206): reject a blank country with 400 before fetching; propagate fetch
failures; 404 when no headings were extracted; otherwise the rendered
outline. -/
def get_country_outline (country : String) (outcome : FetchOutcome) : Except Nat String :=
  if country = "" ∨ pyStrip country = "" then .error 400
  else
    match fetch_wikipedia_page outcome with
    | .error code => .error code
    | .ok doc =>
        let headings := extract_headings doc
        if headings = [] then .error 404
        else .ok (generate_markdown_outline headings)

/-- The full `/api/outline` endpoint as a client observes it, including the
framework layer in front of the handler: `country: str = Query(...)`
(src/main.py lines 149-153) declares a *required* query parameter, and
FastAPI rejects a request in which it is absent with a 422 validation error
before the handler body ever runs; when the parameter is present the
handler `get_country_outline` is invoked on it. -/
def outline_endpoint (country : Option String) (outcome : FetchOutcome) :
    Except Nat String :=
  match country with
  | none => .error 422
  | some c => get_country_outline c outcome

/-- Modelled from the spec: the denylist of navigational section names
(`{"contents", "navigation", "references", "see also"}`) that the
specification says the sanitizer filters out.  No such list occurs anywhere
in src/main.py; it is stated here only to compare the specified behavior
with the code's. -/
def specDenylist : List String := ["contents", "navigation", "references", "see also"]

/-! ### Concrete documents used as witnesses and counterexamples -/

/-- A heading element with a single text child. -/
def mkHeading (tag : String) (s : String) : Node :=
  Node.elem tag none (Forest.ofList [Node.text s])

/-- The end-to-end scenario document: `<h1>Vanuatu</h1><h2>Etymology</h2>
<h2>History</h2><h3>Prehistory</h3>` inside the content region. -/
def vanuatuDoc : Forest :=
  Forest.ofList [Node.elem "html" none (Forest.ofList [Node.elem "body" none (Forest.ofList
    [Node.elem "div" (some "mw-content-text") (Forest.ofList
      [mkHeading "h1" "Vanuatu", mkHeading "h2" "Etymology",
       mkHeading "h2" "History", mkHeading "h3" "Prehistory"])])])]

/-- A content region containing `<h2>References</h2>` and
`<h2>References and Notes</h2>`. -/
def refsDoc : Forest :=
  Forest.ofList [Node.elem "div" (some "mw-content-text") (Forest.ofList
    [mkHeading "h2" "References", mkHeading "h2" "References and Notes"])]

/-- A content region containing a heading rendered the way Wikipedia does:
`<h2>History<span>[edit]</span></h2>`, whose raw walker text is
`"History[edit]"`. -/
def historyDoc : Forest :=
  Forest.ofList [Node.elem "div" (some "mw-content-text") (Forest.ofList
    [Node.elem "h2" none (Forest.ofList
      [Node.text "History", Node.elem "span" none (Forest.ofList [Node.text "[edit]"])])])]

/-- A document whose content-container `div` is present but childless, with
a heading outside it. -/
def emptyDivDoc : Forest :=
  Forest.ofList [Node.elem "div" (some "mw-content-text") Forest.nil,
    mkHeading "h1" "Oops"]

/-- A document with no content-container `div` at all. -/
def noDivDoc : Forest :=
  Forest.ofList [Node.elem "body" none (Forest.ofList [mkHeading "h1" "Plain"])]

/-! ### Helper lemmas: the marker-removal pass -/

/-- If `"[edit]"` does not occur in `l`, the removal pass leaves `l`
unchanged. -/
theorem removeEditL_no_marker (l : List Char) (h : ¬ editMarker <:+: l) :
    removeEditL l = l := by
  induction l using removeEditL.induct with
  | case1 rest ih =>
      exact absurd ⟨[], rest, by simp [editMarker]⟩ h
  | case2 c rest hne ih =>
      have hrest : ¬ editMarker <:+: rest := by
        rintro ⟨s, t, hst⟩
        exact h ⟨c :: s, t, by simp [← hst]⟩
      simp only [removeEditL, ih hrest]
  | case3 => rfl

/-! ### Helper lemmas: idempotence of `strip` -/

/-- `rdropWhile` yields an initial segment of its argument. -/
theorem rdropWhile_initial {α : Type} (p : α → Bool) (l : List α) :
    ∃ t, List.rdropWhile p l ++ t = l := by
  obtain ⟨s, hs⟩ := List.dropWhile_suffix (l := l.reverse) p
  refine ⟨s.reverse, ?_⟩
  have h := congrArg List.reverse hs
  simpa [List.rdropWhile] using h

/-- If `dropWhile` leaves `x ++ t` unchanged it leaves `x` unchanged. -/
theorem dropWhile_append_self {α : Type} (p : α → Bool) (x t : List α)
    (h : List.dropWhile p (x ++ t) = x ++ t) : List.dropWhile p x = x := by
  cases x with
  | nil => simp
  | cons c x' =>
      rw [List.cons_append, List.dropWhile_cons] at h
      rw [List.dropWhile_cons]
      by_cases hc : p c
      · exfalso
        rw [if_pos hc] at h
        have hle := (List.dropWhile_suffix (l := x' ++ t) p).sublist.length_le
        rw [h] at hle
        simp at hle
      · rw [if_neg hc]

/-- Python `strip` is idempotent. -/
theorem pyStripL_idem (l : List Char) : pyStripL (pyStripL l) = pyStripL l := by
  have hdef : ∀ m : List Char,
      pyStripL m = List.rdropWhile Char.isWhitespace (List.dropWhile Char.isWhitespace m) :=
    fun m => rfl
  rw [hdef, hdef]
  obtain ⟨t, ht⟩ := rdropWhile_initial Char.isWhitespace (List.dropWhile Char.isWhitespace l)
  have hA : List.dropWhile Char.isWhitespace
      (List.dropWhile Char.isWhitespace l) = List.dropWhile Char.isWhitespace l :=
    List.dropWhile_idempotent _ _
  have h1 : List.dropWhile Char.isWhitespace
      (List.rdropWhile Char.isWhitespace (List.dropWhile Char.isWhitespace l)) =
      List.rdropWhile Char.isWhitespace (List.dropWhile Char.isWhitespace l) := by
    apply dropWhile_append_self Char.isWhitespace _ t
    rw [ht]
    exact hA
  rw [h1]
  exact List.rdropWhile_idempotent _ _

/-- A text already cleaned once, in which the marker no longer occurs, is a
fixed point of the clean-up. -/
theorem sanitizeText_fix (s : String) (h : ¬ editMarker <:+: (sanitizeText s).data) :
    sanitizeText (sanitizeText s) = sanitizeText s := by
  have hdata : (sanitizeText s).data = pyStripL (removeEditL s.data) := rfl
  have h1 : removeEditL (sanitizeText s).data = (sanitizeText s).data :=
    removeEditL_no_marker _ h
  show pyStrip (pyRemoveEdit (sanitizeText s)) = sanitizeText s
  have h2 : pyRemoveEdit (sanitizeText s) = sanitizeText s := by
    show (⟨removeEditL (sanitizeText s).data⟩ : String) = sanitizeText s
    rw [h1]
  rw [h2]
  show (⟨pyStripL (sanitizeText s).data⟩ : String) = sanitizeText s
  rw [hdata, pyStripL_idem]
  rfl

/-- `filterMap` by a function that maps every member to itself is the
identity. -/
theorem filterMap_self_of_mem {α : Type} (g : α → Option α) (ys : List α)
    (h : ∀ y ∈ ys, g y = some y) : ys.filterMap g = ys := by
  induction ys with
  | nil => rfl
  | cons y ys ih =>
      rw [List.filterMap_cons, h y (List.mem_cons_self y ys),
        ih (fun z hz => h z (List.mem_cons_of_mem y hz))]

/-! ### Helper lemmas: the heading walker -/

mutual
/-- `find_all(['h1'..'h6'])` on a subtree is the pre-order element list
filtered to headings. -/
theorem nodeHeadings_eq_filter (n : Node) :
    nodeHeadings n = (nodeElems n).filter isHeadingNode := by
  cases n with
  | text s => rfl
  | elem t i cs =>
      simp only [nodeHeadings, nodeElems, List.filter_cons, forestHeadings_eq_filter cs]
      by_cases h : isHeadingTag t <;> simp [isHeadingNode, h]
/-- `find_all(['h1'..'h6'])` on a forest is the pre-order element list
filtered to headings. -/
theorem forestHeadings_eq_filter (f : Forest) :
    forestHeadings f = (forestElems f).filter isHeadingNode := by
  cases f with
  | nil => rfl
  | cons n rest =>
      simp only [forestHeadings, forestElems, List.filter_append,
        nodeHeadings_eq_filter n, forestHeadings_eq_filter rest]
end

mutual
/-- The walker emits one record per heading element of a subtree. -/
theorem nodeHeadings_length (n : Node) :
    (nodeHeadings n).length = nodeHeadingCount n := by
  cases n with
  | text s => rfl
  | elem t i cs =>
      simp only [nodeHeadings, nodeHeadingCount, List.length_append,
        forestHeadings_length cs]
      by_cases h : isHeadingTag t <;> simp [h]
/-- The walker emits one record per heading element of a forest. -/
theorem forestHeadings_length (f : Forest) :
    (forestHeadings f).length = forestHeadingCount f := by
  cases f with
  | nil => rfl
  | cons n rest =>
      simp only [forestHeadings, forestHeadingCount, List.length_append,
        nodeHeadings_length n, forestHeadings_length rest]
end

mutual
/-- Everything the walker returns from a subtree is a heading element. -/
theorem nodeHeadings_sound (n : Node) :
    ∀ h ∈ nodeHeadings n, isHeadingNode h = true := by
  cases n with
  | text s => intro h hh; cases hh
  | elem t i cs =>
      intro h hh
      simp only [nodeHeadings, List.mem_append] at hh
      rcases hh with hh | hh
      · by_cases ht : isHeadingTag t
        · rw [if_pos ht] at hh
          simp only [List.mem_singleton] at hh
          subst hh
          simpa [isHeadingNode] using ht
        · rw [if_neg ht] at hh
          cases hh
      · exact forestHeadings_sound cs h hh
/-- Everything the walker returns from a forest is a heading element. -/
theorem forestHeadings_sound (f : Forest) :
    ∀ h ∈ forestHeadings f, isHeadingNode h = true := by
  cases f with
  | nil => intro h hh; cases hh
  | cons n rest =>
      intro h hh
      simp only [forestHeadings, List.mem_append] at hh
      rcases hh with hh | hh
      · exact nodeHeadings_sound n h hh
      · exact forestHeadings_sound rest h hh
end

mutual
/-- Whatever `find('div', {'id': 'mw-content-text'})` returns from a subtree
is a `div` element carrying that id. -/
theorem findDivNode_shape (n : Node) (d : Node) (h : findDivNode n = some d) :
    ∃ cs, d = Node.elem "div" (some "mw-content-text") cs := by
  cases n with
  | text s => cases h
  | elem t i cs =>
      rw [findDivNode] at h
      split at h
      · rename_i hcond
        obtain ⟨ht, hi⟩ := hcond
        injection h with hd
        exact ⟨cs, by rw [← hd, ht, hi]⟩
      · exact findDivForest_shape cs d h
/-- Whatever `find('div', {'id': 'mw-content-text'})` returns from a forest
is a `div` element carrying that id. -/
theorem findDivForest_shape (f : Forest) (d : Node) (h : findDivForest f = some d) :
    ∃ cs, d = Node.elem "div" (some "mw-content-text") cs := by
  cases f with
  | nil => cases h
  | cons n rest =>
      cases hd : findDivNode n with
      | some x =>
          rw [findDivForest, hd] at h
          injection h with hx
          exact hx ▸ findDivNode_shape n x hd
      | none =>
          rw [findDivForest, hd] at h
          exact findDivForest_shape rest d h
end

/-- `extract_headings` is the sanitizer applied to the walker's raw
records. -/
theorem extract_eq_sanitize_raw (doc : Forest) :
    extract_headings doc = sanitizeRecords (rawRecords doc) := by
  rw [extract_headings, rawRecords, sanitizeRecords, List.filterMap_map]
  rfl

/-! ### Helper lemmas: line joining -/

/-- `sep.join` on a list of two or more strings. -/
theorem pyJoin_cons (sep : List Char) (a : String) (rest : List String)
    (h : rest ≠ []) :
    pyJoin sep (a :: rest) = a.data ++ sep ++ pyJoin sep rest := by
  cases rest with
  | nil => exact absurd rfl h
  | cons b rs => rfl

/-- Every member of the joined list occurs contiguously in the join. -/
theorem pyJoin_mem_split (sep : List Char) (L : List String) (a : String)
    (h : a ∈ L) : ∃ pre post, pyJoin sep L = pre ++ a.data ++ post := by
  induction L with
  | nil => cases h
  | cons b rest ih =>
      rcases List.mem_cons.mp h with rfl | hmem
      · cases rest with
        | nil => exact ⟨[], [], by simp [pyJoin]⟩
        | cons c rs => exact ⟨[], sep ++ pyJoin sep (c :: rs), by simp [pyJoin]⟩
      · obtain ⟨pre, post, hp⟩ := ih hmem
        have hne : rest ≠ [] := by rintro rfl; cases hmem
        refine ⟨b.data ++ sep ++ pre, post, ?_⟩
        rw [pyJoin_cons sep b rest hne, hp]
        simp

/-- The level computed from any of the six heading tag names lies in
`[1, 6]`. -/
theorem headingLevel_of_heading_tag (t : String) (h : isHeadingTag t = true) :
    1 ≤ headingLevel t ∧ headingLevel t ≤ 6 := by
  simp only [isHeadingTag, Bool.or_eq_true, beq_iff_eq] at h
  rcases h with ((((rfl | rfl) | rfl) | rfl) | rfl) | rfl <;> exact ⟨by decide, by decide⟩

/-! ### Claim C1 -/

/-- Claim C1 counterexample: src/main.py applies no denylist.  In `refsDoc`
the heading text "References" lower-cases to "references", a member of the
denylist the specification describes, yet `extract_headings` keeps the
record. -/
theorem c1_counterexample :
    pyLower "References" ∈ specDenylist ∧
      (2, "References") ∈ extract_headings refsDoc :=
  ⟨by decide, by decide⟩

/-- Claim C1 (amended): extraction drops a walker record only when its text
after removal of the editor-artifact marker and re-trimming is empty; no
denylist is applied, so every record with non-empty cleaned text is kept —
in particular a heading whose text is exactly "References" is kept, as is
"References and Notes". -/
theorem c1_amended :
    (∀ (doc : Forest) (l : Nat) (t : String), (l, t) ∈ rawRecords doc →
        sanitizeText t ≠ "" → (l, sanitizeText t) ∈ extract_headings doc) ∧
      extract_headings refsDoc = [(2, "References"), (2, "References and Notes")] := by
  constructor
  · intro doc l t hmem hne
    rw [extract_eq_sanitize_raw, sanitizeRecords]
    refine List.mem_filterMap.mpr ⟨(l, t), hmem, ?_⟩
    simp [hne]
  · decide

/-- Witness for `c1_amended` at the concrete document `refsDoc` and the
record `(2, "References")`. -/
theorem c1_amended_witness :
    (2, sanitizeText "References") ∈ extract_headings refsDoc :=
  c1_amended.1 refsDoc 2 "References" (by decide) (by decide)

/-! ### Claim C2 -/

/-- Claim C2 counterexample: rendering the cleaned Vanuatu sequence does not
produce exactly the four heading lines joined by the separator (with either
configured separator): the renderer unconditionally prepends a synthetic
"# Contents" line followed by a blank line. -/
theorem c2_counterexample :
    generate_markdown_outline
        [(1, "Vanuatu"), (2, "Etymology"), (2, "History"), (3, "Prehistory")] ≠
        "# Vanuatu\n## Etymology\n## History\n### Prehistory" ∧
      generate_markdown_outline
        [(1, "Vanuatu"), (2, "Etymology"), (2, "History"), (3, "Prehistory")] ≠
        "# Vanuatu\n\n## Etymology\n\n## History\n\n### Prehistory" :=
  ⟨by decide, by decide⟩

/-- Claim C2 (amended): the Vanuatu document extracts to the cleaned
sequence `[(1,"Vanuatu"), (2,"Etymology"), (2,"History"), (3,"Prehistory")]`,
and rendering that sequence produces the synthetic line "# Contents", a
blank line, and then the four lines "# Vanuatu", "## Etymology",
"## History", "### Prehistory" in that order, joined by "\n". -/
theorem c2_amended :
    extract_headings vanuatuDoc =
        [(1, "Vanuatu"), (2, "Etymology"), (2, "History"), (3, "Prehistory")] ∧
      generate_markdown_outline
        [(1, "Vanuatu"), (2, "Etymology"), (2, "History"), (3, "Prehistory")] =
        "# Contents\n\n# Vanuatu\n## Etymology\n## History\n### Prehistory" :=
  ⟨by decide, by decide⟩

/-! ### Claim C3 -/

/-- Claim C3: for every document, the heading walker's raw records are
exactly the heading elements of the scoped region in document order
(pre-order), one record per heading element — so their number equals the
number of heading elements in the scoped region. -/
theorem c3_walker_document_order :
    ∀ doc : Forest,
      rawRecords doc =
        ((forestElems (scopeOf doc)).filter isHeadingNode).map
          (fun h => (headingLevel (tagOf h), getTextStrip h)) ∧
      (rawRecords doc).length = forestHeadingCount (scopeOf doc) := by
  intro doc
  constructor
  · rw [rawRecords, forestHeadings_eq_filter]
  · rw [rawRecords, List.length_map, forestHeadings_length]

/-! ### Claim C4 -/

/-- Claim C4: for every non-empty cleaned sequence and every record
`(l, t)` in it with `l` in `[1,6]`, the renderer emits for that record the
line made of exactly `l` '#' characters, one space, and `t`, and that line
occurs contiguously in the output; in particular `(3, "History")` renders
as the line "### History". -/
theorem c4_renderer_line_shape :
    (∀ (hs : List (Nat × String)) (l : Nat) (t : String),
        hs ≠ [] → (l, t) ∈ hs → 1 ≤ l → l ≤ 6 →
        (markdownLine (l, t)).data = List.replicate l '#' ++ ' ' :: t.data ∧
        ∃ pre post, (generate_markdown_outline hs).data =
          pre ++ (markdownLine (l, t)).data ++ post) ∧
      markdownLine (3, "History") = "### History" := by
  refine ⟨?_, by decide⟩
  intro hs l t hne hmem h1 h6
  refine ⟨rfl, ?_⟩
  rw [generate_markdown_outline, if_neg hne]
  exact pyJoin_mem_split ['\n'] ("# Contents\n" :: hs.map markdownLine)
    (markdownLine (l, t))
    (List.mem_cons_of_mem _ (List.mem_map_of_mem markdownLine hmem))

/-- Witness for `c4_renderer_line_shape` at the cleaned sequence
`[(3, "History")]`. -/
theorem c4_witness :
    (markdownLine (3, "History")).data =
        List.replicate 3 '#' ++ ' ' :: "History".data ∧
      ∃ pre post, (generate_markdown_outline [(3, "History")]).data =
        pre ++ (markdownLine (3, "History")).data ++ post :=
  c4_renderer_line_shape.1 [(3, "History")] 3 "History" (by decide) (by decide)
    (by decide) (by decide)

/-! ### Claim C5 -/

/-- Claim C5 counterexample: the sanitization step is not idempotent.
`"[ed[edit]it]"` sanitizes once to `"[edit]"` (Python's `str.replace` does
not rescan), a non-empty kept record, but a second application removes the
freshly formed marker and drops the record entirely. -/
theorem c5_counterexample :
    sanitizeRecords (sanitizeRecords [(1, "[ed[edit]it]")]) ≠
      sanitizeRecords [(1, "[ed[edit]it]")] := by decide

/-- Claim C5 (amended): one removal pass cannot leave the marker behind
unless occurrences overlapped in the input, so the sanitizer is idempotent
on every sequence whose once-sanitized records contain no residual
`"[edit]"` occurrence (in particular on all ordinary heading texts); it is
not idempotent unconditionally. -/
theorem c5_amended :
    ∀ rs : List (Nat × String),
      (∀ r ∈ sanitizeRecords rs, ¬ editMarker <:+: r.2.data) →
      sanitizeRecords (sanitizeRecords rs) = sanitizeRecords rs := by
  intro rs hfree
  apply filterMap_self_of_mem
  intro y hy
  obtain ⟨a, ha, hga⟩ := List.mem_filterMap.mp hy
  by_cases hempty : sanitizeText a.2 = ""
  · rw [if_pos hempty] at hga
    cases hga
  · rw [if_neg hempty] at hga
    injection hga with hya
    subst hya
    have hfix := sanitizeText_fix a.2 (hfree _ hy)
    show (if sanitizeText (sanitizeText a.2) = "" then none
        else some (a.1, sanitizeText (sanitizeText a.2))) = some (a.1, sanitizeText a.2)
    rw [hfix, if_neg hempty]

/-- Witness for `c5_amended` at the sequence `[(2, " History[edit] ")]`. -/
theorem c5_witness :
    sanitizeRecords (sanitizeRecords [(2, " History[edit] ")]) =
      sanitizeRecords [(2, " History[edit] ")] :=
  c5_amended [(2, " History[edit] ")] (by decide)

/-! ### Claim C6 -/

/-- Claim C6: every extracted record's text is obtained from the raw text of
one of the walked heading elements by removing the literal `"[edit]"`
marker and re-trimming whitespace; in particular raw text `"History[edit]"`
sanitizes to exactly `"History"`, and a Wikipedia-style heading
`<h2>History<span>[edit]</span></h2>` extracts as `(2, "History")`. -/
theorem c6_sanitizer_marker_removal :
    (∀ (doc : Forest) (l : Nat) (t : String), (l, t) ∈ extract_headings doc →
        ∃ h, h ∈ forestHeadings (scopeOf doc) ∧
          l = headingLevel (tagOf h) ∧
          t = pyStrip (pyRemoveEdit (getTextStrip h))) ∧
      sanitizeText "History[edit]" = "History" ∧
      extract_headings historyDoc = [(2, "History")] := by
  refine ⟨?_, by decide, by decide⟩
  intro doc l t hmem
  obtain ⟨h, hh, hph⟩ := List.mem_filterMap.mp hmem
  rw [processHeading] at hph
  by_cases hempty : sanitizeText (getTextStrip h) = ""
  · rw [if_pos hempty] at hph
    cases hph
  · rw [if_neg hempty] at hph
    injection hph with hpair
    injection hpair with hl ht
    subst hl
    subst ht
    exact ⟨h, hh, rfl, rfl⟩

/-- Witness for `c6_sanitizer_marker_removal` at `historyDoc` and the
record `(2, "History")`. -/
theorem c6_witness :
    ∃ h, h ∈ forestHeadings (scopeOf historyDoc) ∧
      2 = headingLevel (tagOf h) ∧
      "History" = pyStrip (pyRemoveEdit (getTextStrip h)) :=
  c6_sanitizer_marker_removal.1 historyDoc 2 "History" (by decide)

/-! ### Claim C7 -/

/-- Claim C7 counterexample: in `emptyDivDoc` the content-container marker
(a `div` with id "mw-content-text") is present but childless; bs4 tags with
no children are falsy, so `if not content:` falls back to the whole
document instead of the marker's subtree, and the heading outside the
marker is extracted. -/
theorem c7_counterexample :
    findDivForest emptyDivDoc =
        some (Node.elem "div" (some "mw-content-text") Forest.nil) ∧
      scopeOf emptyDivDoc = emptyDivDoc ∧
      extract_headings emptyDivDoc = [(1, "Oops")] :=
  ⟨rfl, rfl, by decide⟩

/-- Claim C7 (amended): the content scoper is total (never null, no error
conditions) and returns the subtree of the first `div` with id
"mw-content-text" when such a `div` is present *and has at least one
child*; otherwise — marker absent, or present but childless (a childless
bs4 tag is falsy) — it returns the whole document. -/
theorem c7_amended :
    ∀ doc : Forest,
      (findDivForest doc = none → scopeOf doc = doc) ∧
      (∀ t i, findDivForest doc = some (Node.elem t i Forest.nil) →
        scopeOf doc = doc) ∧
      (∀ t i c rest,
        findDivForest doc = some (Node.elem t i (Forest.cons c rest)) →
        t = "div" ∧ i = some "mw-content-text" ∧
          scopeOf doc = Forest.cons c rest) := by
  intro doc
  refine ⟨?_, ?_, ?_⟩
  · intro h
    rw [scopeOf, h]
  · intro t i h
    rw [scopeOf, h]
  · intro t i c rest h
    obtain ⟨cs, hshape⟩ := findDivForest_shape doc _ h
    injection hshape with ht hi hcs
    refine ⟨ht, hi, ?_⟩
    rw [scopeOf, h]

/-- Witness for `c7_amended`: marker absent in `noDivDoc` (whole-document
scope), marker present with children in `refsDoc` (its children become the
scope). -/
theorem c7_witness :
    scopeOf noDivDoc = noDivDoc ∧
      ("div" = "div" ∧ some "mw-content-text" = some "mw-content-text" ∧
        scopeOf refsDoc =
          Forest.cons (mkHeading "h2" "References")
            (Forest.cons (mkHeading "h2" "References and Notes") Forest.nil)) :=
  ⟨(c7_amended noDivDoc).1 rfl,
   (c7_amended refsDoc).2.2 "div" (some "mw-content-text")
     (mkHeading "h2" "References")
     (Forest.cons (mkHeading "h2" "References and Notes") Forest.nil) rfl⟩

/-! ### Claim C8 -/

/-- Claim C8 counterexample: a request with the country parameter missing
is rejected by the framework's required-parameter validation with a 422
validation error, not the 400 the claim asserts. -/
theorem c8_counterexample :
    outline_endpoint none (FetchOutcome.success vanuatuDoc) = Except.error 422 ∧
      (Except.error 422 : Except Nat String) ≠ Except.error 400 := by
  refine ⟨rfl, ?_⟩
  intro h
  injection h with h2
  exact absurd h2 (by decide)

/-- Claim C8 (amended): status mapping of the endpoint.  A *missing*
country parameter yields a 422 validation error from the framework,
whatever the fetch outcome would have been; a present but *blank* country
yields 400 from the handler's own guard, again for every fetch outcome —
in both cases the core transform is never invoked; an upstream 404 yields
404; any other upstream status error and any other fetch failure yield
500 (a 5xx). -/
theorem c8_amended :
    ∀ (country : String) (outcome : FetchOutcome),
      (∀ o : FetchOutcome, outline_endpoint none o = Except.error 422) ∧
      (pyStrip country = "" →
        outline_endpoint (some country) outcome = Except.error 400) ∧
      (pyStrip country ≠ "" → outcome = FetchOutcome.statusError 404 →
        outline_endpoint (some country) outcome = Except.error 404) ∧
      (∀ code, pyStrip country ≠ "" → outcome = FetchOutcome.statusError code →
        code ≠ 404 → outline_endpoint (some country) outcome = Except.error 500) ∧
      (pyStrip country ≠ "" → outcome = FetchOutcome.otherFailure →
        outline_endpoint (some country) outcome = Except.error 500) := by
  intro country outcome
  have hck : pyStrip country ≠ "" → ¬ (country = "" ∨ pyStrip country = "") := by
    intro hnb
    rintro (rfl | hb)
    · exact hnb rfl
    · exact hnb hb
  have hsome : ∀ o : FetchOutcome,
      outline_endpoint (some country) o = get_country_outline country o :=
    fun o => rfl
  refine ⟨fun o => rfl, ?_, ?_, ?_, ?_⟩
  · intro hblank
    rw [hsome, get_country_outline, if_pos (Or.inr hblank)]
  · intro hnb houtcome
    subst houtcome
    rw [hsome, get_country_outline, if_neg (hck hnb)]
    rfl
  · intro code hnb houtcome hcode
    subst houtcome
    have hfetch : fetch_wikipedia_page (FetchOutcome.statusError code) =
        Except.error 500 := by
      rw [fetch_wikipedia_page, if_neg hcode]
    rw [hsome, get_country_outline, if_neg (hck hnb), hfetch]
  · intro hnb houtcome
    subst houtcome
    rw [hsome, get_country_outline, if_neg (hck hnb)]
    rfl

/-- Witness for `c8_amended` at concrete requests: parameter missing,
parameter blank, upstream 404, upstream 503, network failure. -/
theorem c8_amended_witness :
    outline_endpoint none (FetchOutcome.statusError 404) = Except.error 422 ∧
      outline_endpoint (some "") (FetchOutcome.success vanuatuDoc) = Except.error 400 ∧
      outline_endpoint (some "Vanuatu") (FetchOutcome.statusError 404) = Except.error 404 ∧
      outline_endpoint (some "Vanuatu") (FetchOutcome.statusError 503) = Except.error 500 ∧
      outline_endpoint (some "Vanuatu") FetchOutcome.otherFailure = Except.error 500 :=
  ⟨(c8_amended "Vanuatu" FetchOutcome.otherFailure).1 (FetchOutcome.statusError 404),
   (c8_amended "" (FetchOutcome.success vanuatuDoc)).2.1 rfl,
   (c8_amended "Vanuatu" (FetchOutcome.statusError 404)).2.2.1 (by decide) rfl,
   (c8_amended "Vanuatu" (FetchOutcome.statusError 503)).2.2.2.1 503 (by decide)
     rfl (by decide),
   (c8_amended "Vanuatu" FetchOutcome.otherFailure).2.2.2.2 (by decide) rfl⟩

/-! ### Claim C9 -/

/-- Claim C9: for a non-empty cleaned sequence the rendered output starts
with the synthetic line "# Contents" followed by a blank line, then the
rendered heading lines; for the empty sequence the renderer returns the
fixed string "No headings found."; and the endpoint answers 404 when the
extracted heading list is empty, before the renderer could see empty
input. -/
theorem c9_contents_line_and_empty_behavior :
    (∀ hs : List (Nat × String), hs ≠ [] →
        (generate_markdown_outline hs).data =
          "# Contents\n\n".data ++ pyJoin ['\n'] (hs.map markdownLine)) ∧
      generate_markdown_outline [] = "No headings found." ∧
      (∀ (country : String) (doc : Forest), pyStrip country ≠ "" →
        extract_headings doc = [] →
        get_country_outline country (FetchOutcome.success doc) =
          Except.error 404) := by
  refine ⟨?_, rfl, ?_⟩
  · intro hs hne
    rw [generate_markdown_outline, if_neg hne]
    show pyJoin ['\n'] ("# Contents\n" :: hs.map markdownLine) =
      "# Contents\n\n".data ++ pyJoin ['\n'] (hs.map markdownLine)
    rw [pyJoin_cons ['\n'] "# Contents\n" (hs.map markdownLine)
      (by simpa using hne)]
    rfl
  · intro country doc hnb hempty
    have hck : ¬ (country = "" ∨ pyStrip country = "") := by
      rintro (rfl | hb)
      · exact hnb rfl
      · exact hnb hb
    rw [get_country_outline, if_neg hck]
    show (match fetch_wikipedia_page (FetchOutcome.success doc) with
      | .error code => (.error code : Except Nat String)
      | .ok doc =>
          if extract_headings doc = [] then .error 404
          else .ok (generate_markdown_outline (extract_headings doc))) =
        Except.error 404
    rw [fetch_wikipedia_page]
    show (if extract_headings doc = [] then (.error 404 : Except Nat String)
      else .ok (generate_markdown_outline (extract_headings doc))) =
        Except.error 404
    rw [if_pos hempty]

/-- Witness for `c9_contents_line_and_empty_behavior` at the sequence
`[(1, "Vanuatu")]` and at a request whose document has no headings. -/
theorem c9_witness :
    (generate_markdown_outline [(1, "Vanuatu")]).data =
        "# Contents\n\n".data ++ pyJoin ['\n'] ([(1, "Vanuatu")].map markdownLine) ∧
      get_country_outline "Vanuatu"
          (FetchOutcome.success (Forest.ofList [Node.text "no headings here"])) =
        Except.error 404 :=
  ⟨c9_contents_line_and_empty_behavior.1 [(1, "Vanuatu")] (by decide),
   c9_contents_line_and_empty_behavior.2.2 "Vanuatu"
     (Forest.ofList [Node.text "no headings here"]) (by decide) (by decide)⟩

/-! ### Claim C10 -/

/-- Claim C10: every record returned by `extract_headings` satisfies the
HeadingRecord invariant: its level, derived only from the tag names
`h1`..`h6`, lies in `[1, 6]`, and its text is non-empty after
sanitization. -/
theorem c10_record_invariant :
    ∀ (doc : Forest) (l : Nat) (t : String), (l, t) ∈ extract_headings doc →
      1 ≤ l ∧ l ≤ 6 ∧ t ≠ "" := by
  intro doc l t hmem
  obtain ⟨h, hh, hph⟩ := List.mem_filterMap.mp hmem
  rw [processHeading] at hph
  by_cases hempty : sanitizeText (getTextStrip h) = ""
  · rw [if_pos hempty] at hph
    cases hph
  · rw [if_neg hempty] at hph
    injection hph with hpair
    injection hpair with hl ht
    subst hl
    subst ht
    have hsound := forestHeadings_sound (scopeOf doc) h hh
    cases h with
    | text s => simp [isHeadingNode] at hsound
    | elem tg i cs =>
        have hbounds := headingLevel_of_heading_tag tg
          (by simpa [isHeadingNode] using hsound)
        exact ⟨hbounds.1, hbounds.2, hempty⟩

/-- Witness for `c10_record_invariant` at `historyDoc` and its single
record `(2, "History")`. -/
theorem c10_witness : 1 ≤ 2 ∧ 2 ≤ 6 ∧ "History" ≠ "" :=
  c10_record_invariant historyDoc 2 "History" (by decide)
